import Mathlib

/-!
Shallow embedding of the video-to-GIF transcoding engine of
`src/core/gif.py` (`from_video` and `_get_video_metadata_ffprobe`).

Python floats that can carry `inf` are modelled by `PyFloat` (a rational or
infinity); `int(x)` on a float is truncation toward zero, modelled by
`myTrunc`.  External effects (the `imageio` metadata call, the frame
iterator, the `ffprobe` subprocess) are modelled by an `Env` oracle, and the
scratch-file / decoder side effects of a run are recorded in a `Trace`.
-/

deriving instance DecidableEq for Except

namespace Gif

/-- Truncation toward zero, the semantics of Python `int()` on a float. -/
def myTrunc (q : ℚ) : ℤ := if 0 ≤ q then ⌊q⌋ else ⌈q⌉

/-- A Python float value as the engine sees it: a finite rational or `inf`. -/
inductive PyFloat where
  | fin (q : ℚ)
  | inf
deriving DecidableEq, Repr

/-- Python `x <= 0` on a (nonnegative-or-infinite) float value. -/
def PyFloat.le0 : PyFloat → Bool
  | .inf => false
  | .fin q => decide (q ≤ 0)

/-- Multiplication of a Python float by a positive rational factor. -/
def PyFloat.mulQ : PyFloat → ℚ → PyFloat
  | .inf, _ => .inf
  | .fin q, r => .fin (q * r)

/-- A decoded video frame, abstracted to its pixel dimensions. -/
structure Frame where
  width : ℕ
  height : ℕ
deriving DecidableEq, Repr

/-- The fields of the `iio.immeta` metadata dict that `from_video` reads:
`shape` (height, width, ...), `size` (width, height, ...), `fps`,
`framerate`. -/
structure IIOMeta where
  shape : Option (List PyFloat)
  size : Option (List PyFloat)
  fps : Option PyFloat
  framerate : Option PyFloat
deriving DecidableEq, Repr

/-- An `r_frame_rate` string from ffprobe: either `"num/den"` or a plain
decimal number. -/
inductive RateStr where
  | rational (num den : ℤ)
  | decimal (v : ℚ)
deriving DecidableEq, Repr

/-- The first video stream as reported by ffprobe's JSON output. -/
structure FFProbeStream where
  width : Option ℤ
  height : Option ℤ
  r_frame_rate : Option RateStr
deriving DecidableEq, Repr

/-- Outcome of running the ffprobe subprocess: parsed streams, or a failure
(non-zero exit, timeout, missing binary, or unparsable output — all of which
`_get_video_metadata_ffprobe` turns into a `ValueError` message). -/
inductive FFProbeResult where
  | success (streams : List FFProbeStream)
  | failure (msg : String)
deriving DecidableEq, Repr

/-- Lines 256-265 of `gif.py`: parse `r_frame_rate`, starting from the
default 30.0; a rational `num/den` is evaluated as the quotient unless
`den == 0`, in which case the default stands. -/
def parseFrameRate : Option RateStr → ℚ
  | Option.none => 30
  | some (.rational n d) => if d ≠ 0 then (n : ℚ) / (d : ℚ) else 30
  | some (.decimal v) => v

/-- `_get_video_metadata_ffprobe` (lines 216-287 of `gif.py`): returns
`(width, height, fps)` from the first stream, or an error when the probe
failed, no stream is present, or width/height are missing, falsy, or
non-positive. -/
def get_video_metadata_ffprobe : FFProbeResult → Except String (ℤ × ℤ × ℚ)
  | .failure msg => .error msg
  | .success [] => .error "No video streams found by ffprobe"
  | .success (s :: _) =>
    let fps := parseFrameRate s.r_frame_rate
    match s.width, s.height with
    | some w, some h =>
      if w = 0 ∨ h = 0 then .error "Invalid dimensions from ffprobe"
      else if w ≤ 0 ∨ h ≤ 0 then .error "Invalid dimensions from ffprobe"
      else .ok (w, h, fps)
    | _, _ => .error "Invalid dimensions from ffprobe"

/-- Lift an ffprobe triple into the `PyFloat` metadata domain. -/
def liftFFprobe (r : Except String (ℤ × ℤ × ℚ)) :
    Except String (PyFloat × PyFloat × PyFloat) :=
  match r with
  | .ok (w, h, f) => .ok (.fin (w : ℚ), .fin (h : ℚ), .fin f)
  | .error e => .error e

/-- The synthetic metadata dict built on line 76 of `gif.py` when `immeta`
fails but ffprobe succeeds: `{"shape": [height, width], "fps": fps}`. -/
def synthMeta (w h : ℤ) (f : ℚ) : IIOMeta :=
  { shape := some [.fin (h : ℚ), .fin (w : ℚ)]
    size := Option.none
    fps := some (.fin f)
    framerate := Option.none }

/-- Lines 81-88 of `gif.py`: extract `(width, height)` from `shape`
(height-first) if it has at least two entries, else from `size`
(width-first), else nothing. -/
def extractDims (m : IIOMeta) : Option (PyFloat × PyFloat) :=
  match m.shape with
  | some (h :: w :: _) => some (w, h)
  | _ =>
    match m.size with
    | some (w :: h :: _) => some (w, h)
    | _ => Option.none

/-- Lines 83, 90-93 of `gif.py`: the source frame rate from `fps`, else
`framerate`, else the 30.0 default. -/
def extractFps (m : IIOMeta) : PyFloat :=
  match m.fps with
  | some f => f
  | Option.none =>
    match m.framerate with
    | some f => f
    | Option.none => .fin 30

/-- Line 109 of `gif.py`: a dimension pair is invalid when either is
infinite or `<= 0` (`w == inf or h == inf or w <= 0 or h <= 0`). -/
def dimsInvalid : PyFloat → PyFloat → Bool
  | .inf, _ => true
  | _, .inf => true
  | .fin a, .fin b => decide (a ≤ 0) || decide (b ≤ 0)

/-- Lines 66-78 of `gif.py`: obtain the metadata dict from `iio.immeta`,
falling back to ffprobe (via `synthMeta`) when `immeta` raises; if that
fallback also fails, the original `immeta` error is reported.  The second
component counts ffprobe invocations. -/
def getMeta (immeta : Except String IIOMeta) (ffp : FFProbeResult) :
    Except String IIOMeta × ℕ :=
  match immeta with
  | .ok m => (.ok m, 0)
  | .error e =>
    match get_video_metadata_ffprobe ffp with
    | .ok (w, h, f) => (.ok (synthMeta w h f), 1)
    | .error _ => (.error ("Unable to read video metadata: " ++ e), 1)

/-- Lines 99-112 of `gif.py`: keep the extracted dimensions when present and
valid, otherwise re-derive all three values from ffprobe. -/
def resolveDims (dims : Option (PyFloat × PyFloat)) (fps0 : PyFloat)
    (ffp : FFProbeResult) : Except String (PyFloat × PyFloat × PyFloat) × ℕ :=
  match dims with
  | Option.none => (liftFFprobe (get_video_metadata_ffprobe ffp), 1)
  | some (w, h) =>
    if dimsInvalid w h then (liftFFprobe (get_video_metadata_ffprobe ffp), 1)
    else (.ok (w, h, fps0), 0)

/-- The whole metadata-resolution phase of `from_video` (lines 66-112):
`immeta` first, ffprobe as the only fallback. -/
def resolveMetadata (immeta : Except String IIOMeta) (ffp : FFProbeResult) :
    Except String (PyFloat × PyFloat × PyFloat) × ℕ :=
  match getMeta immeta ffp with
  | (.error e, n) => (.error e, n)
  | (.ok m, n) =>
    ((resolveDims (extractDims m) (extractFps m) ffp).1,
     n + (resolveDims (extractDims m) (extractFps m) ffp).2)

/-- Lines 114-126 of `gif.py`: `new_width = original_width * resize_factor`
(and likewise for height), rejected unless strictly between 0 and infinity,
truncated by `int()`, and rejected again if the integer result is `<= 0`. -/
def computeSize (ow oh : PyFloat) (rf : ℚ) : Except String (ℕ × ℕ) :=
  match ow.mulQ rf, oh.mulQ rf with
  | .fin a, .fin b =>
    if a ≤ 0 ∨ b ≤ 0 then .error "Invalid resize calculation"
    else if myTrunc a ≤ 0 ∨ myTrunc b ≤ 0 then
      .error "Calculated dimensions too small"
    else .ok ((myTrunc a).toNat, (myTrunc b).toNat)
  | _, _ => .error "Invalid resize calculation"

/-- `(video_fps / fps) * speed_factor` in Python float arithmetic: infinity
stays infinite, finite values follow exact rational arithmetic. -/
def stepVal (vfps : PyFloat) (fps : ℤ) (sp : ℚ) : PyFloat :=
  match vfps with
  | .fin v => .fin (v / (fps : ℚ) * sp)
  | .inf => .inf

/-- Lines 131-134 of `gif.py`: `frame_step = int((video_fps/fps)*speed)`,
clamped up to 1; `int()` of an infinite float raises `OverflowError`. -/
def frame_step (vfps : PyFloat) (fps : ℤ) (sp : ℚ) : Except String ℕ :=
  match stepVal vfps fps sp with
  | .inf => .error "cannot convert float infinity to integer"
  | .fin q =>
    let s := myTrunc q
    .ok (if s < 1 then (1 : ℤ) else s).toNat

/-- Lines 149-157 of `gif.py`: a retained frame passes through the PIL
Lanczos resize to `(w, h)` exactly when `resize_factor != 1.0`. -/
def processFrame (rf : ℚ) (w h : ℕ) (f : Frame) : Frame :=
  if rf ≠ 1 then ⟨w, h⟩ else f

/-- The frame-iteration loop of lines 140-165 of `gif.py`: retain frame `i`
iff `i % frame_step == 0` (resizing it as it is retained), stop as soon as
the incremented index exceeds 1000.  Returns the retained frames and whether
the loop stopped via the safety `break`. -/
def processLoop (step : ℕ) (rf : ℚ) (w h : ℕ) :
    List Frame → ℕ → List Frame → List Frame × Bool
  | [], _, acc => (acc.reverse, false)
  | f :: rest, i, acc =>
    let acc' := if i % step == 0 then processFrame rf w h f :: acc else acc
    if i + 1 > 1000 then (acc'.reverse, true)
    else processLoop step rf w h rest (i + 1) acc'

/-- The list of frames retained from a decoded frame sequence. -/
def retainedList (step : ℕ) (rf : ℚ) (w h : ℕ) (frames : List Frame) :
    List Frame :=
  (processLoop step rf w h frames 0 []).1

/-- Line 183 of `gif.py`: `duration_ms = int(1000 / fps)`. -/
def duration_ms (fps : ℤ) : ℕ := (myTrunc (1000 / (fps : ℚ))).toNat

/-- Lines 50-54 of `gif.py`: the loop-count mapping
`forever → 0, once → 1, none → -1`. -/
inductive LoopMode where
  | forever
  | once
  | none
deriving DecidableEq, Repr

def loop_count : LoopMode → ℤ
  | .forever => 0
  | .once => 1
  | .none => -1

/-- Line 192 of `gif.py`: the `loop=` keyword passed to the GIF writer is
the loop count when it is `>= 0`, and `None` (omitted) otherwise. -/
def loopOpt (lc : ℤ) : Option ℤ := if 0 ≤ lc then some lc else Option.none

/-- Lines 14 and 44 of `gif.py`: the resize option and its parsed factor
`int(resize.rstrip("%")) / 100`. -/
inductive Resize where
  | p25
  | p50
  | p75
  | p100
deriving DecidableEq, Repr

def Resize.factor : Resize → ℚ
  | .p25 => 25 / 100
  | .p50 => 50 / 100
  | .p75 => 75 / 100
  | .p100 => 100 / 100

/-- Lines 15 and 47 of `gif.py`: the speed option and its parsed factor
`float(speed.rstrip("x"))`. -/
inductive Speed where
  | half
  | one
  | two
  | four
deriving DecidableEq, Repr

def Speed.factor : Speed → ℚ
  | .half => 1 / 2
  | .one => 1
  | .two => 2
  | .four => 4

/-- One frame record written to the GIF container: its dimensions, its
display duration in milliseconds, and the loop keyword it was written with
(`Option.none` meaning the loop metadata is omitted). -/
structure GifFrameRec where
  width : ℕ
  height : ℕ
  duration : ℕ
  loop : Option ℤ
deriving DecidableEq, Repr

/-- The external world of one conversion call: the `immeta` outcome, the
frame sequence the decoder yields, an optional decode error raised after
those frames, and the ffprobe outcome. -/
structure Env where
  immeta : Except String IIOMeta
  frames : List Frame
  iterError : Option String
  ffprobe : FFProbeResult

/-- Observable side effects of a run: whether the scratch video/GIF files
exist at the end, and how many decoder calls, ffprobe calls and file
creations happened. -/
structure Trace where
  videoFile : Bool
  gifFile : Bool
  decoderCalls : ℕ
  ffprobeCalls : ℕ
  filesCreated : ℕ
deriving DecidableEq, Repr

def Trace.empty : Trace := ⟨false, false, 0, 0, 0⟩

/-- The `finally` block of lines 209-213 of `gif.py`: both scratch files are
unlinked. -/
def Trace.cleanup (t : Trace) : Trace :=
  ⟨false, false, t.decoderCalls, t.ffprobeCalls, t.filesCreated⟩

/-- Lines 37-41 of `gif.py`: parameter validation, before any file or
decoder is touched. -/
def validateParams (fps quality : ℤ) : Except String Unit :=
  if ¬ (3 ≤ fps ∧ fps ≤ 10) then .error "FPS must be between 3 and 10"
  else if ¬ (0 ≤ quality ∧ quality ≤ 100) then
    .error "Quality must be between 0 and 100"
  else .ok ()

/-- The `try` block of `from_video` (lines 60-204): write the scratch video
file, resolve metadata, compute the target size and frame step, iterate and
retain frames, reject an empty result, and write the GIF records. -/
def tryBody (env : Env) (rf sp : ℚ) (fps lc : ℤ) :
    Except String (List GifFrameRec) × Trace :=
  match resolveMetadata env.immeta env.ffprobe with
  | (.error e, nf) => (.error e, ⟨true, false, 1, nf, 1⟩)
  | (.ok (ow, oh, vfps), nf) =>
    match computeSize ow oh rf with
    | .error e => (.error e, ⟨true, false, 1, nf, 1⟩)
    | .ok (w, h) =>
      match frame_step vfps fps sp with
      | .error e => (.error e, ⟨true, false, 1, nf, 1⟩)
      | .ok step =>
        match env.iterError, (processLoop step rf w h env.frames 0 []).2 with
        | some e, false =>
          (.error ("Failed to process video frames: " ++ e),
           ⟨true, false, 2, nf, 1⟩)
        | _, _ =>
          if (processLoop step rf w h env.frames 0 []).1.isEmpty then
            (.error "No frames could be extracted from the video",
             ⟨true, false, 2, nf, 1⟩)
          else
            (.ok ((processLoop step rf w h env.frames 0 []).1.map fun f =>
                ⟨f.width, f.height, duration_ms fps, loopOpt lc⟩),
             ⟨true, true, 2, nf, 2⟩)

/-- Line 206-207 of `gif.py`: every exception of the `try` block is
re-raised as `ValueError("Failed to convert video to GIF: ...")`. -/
def wrapError : Except String (List GifFrameRec) →
    Except String (List GifFrameRec)
  | .ok v => .ok v
  | .error e => .error ("Failed to convert video to GIF: " ++ e)

/-- The result of one conversion call: the returned GIF records or the
raised error, together with the side-effect trace. -/
structure RunResult where
  result : Except String (List GifFrameRec)
  trace : Trace

/-- `from_video` (lines 12-213 of `gif.py`): validate, then run the `try`
body, wrap any failure, and clean up the scratch files in all cases. -/
def from_video (env : Env) (resize : Resize) (speed : Speed)
    (fps quality : ℤ) (loop : LoopMode) : RunResult :=
  match validateParams fps quality with
  | .error e => ⟨.error e, Trace.empty⟩
  | .ok _ =>
    ⟨wrapError (tryBody env resize.factor speed.factor fps (loop_count loop)).1,
     (tryBody env resize.factor speed.factor fps (loop_count loop)).2.cleanup⟩

/-! ### Concrete environments used by witnesses and counterexamples -/

/-- A well-behaved 720x480, 30 fps source whose decoder yields ten frames. -/
def metaOk : IIOMeta :=
  { shape := some [.fin 480, .fin 720], size := Option.none
    fps := some (.fin 30), framerate := Option.none }

def envOk : Env :=
  { immeta := .ok metaOk, frames := List.replicate 10 ⟨720, 480⟩
    iterError := Option.none, ffprobe := .failure "unused" }

/-- The records `from_video envOk .p50 .one 8 75 .forever` writes. -/
def recsOk : List GifFrameRec := List.replicate 4 ⟨360, 240, 125, some 0⟩

/-- An 8 fps source that decodes to 1001 frames. -/
def meta8 : IIOMeta :=
  { shape := some [.fin 480, .fin 640], size := Option.none
    fps := some (.fin 8), framerate := Option.none }

def env1001 : Env :=
  { immeta := .ok meta8, frames := List.replicate 1001 ⟨640, 480⟩
    iterError := Option.none, ffprobe := .failure "unused" }

def recs1001 : List GifFrameRec := List.replicate 1001 ⟨640, 480, 125, some 0⟩

/-- Primary metadata opens but carries no dimension information at all. -/
def metaNoDims : IIOMeta :=
  { shape := Option.none, size := Option.none
    fps := Option.none, framerate := Option.none }

/-- Dimensionless primary metadata, a decodable first frame, and a failing
ffprobe. -/
def envC4 : Env :=
  { immeta := .ok metaNoDims, frames := [⟨640, 480⟩]
    iterError := Option.none, ffprobe := .failure "probe down" }

/-- A source the decoder opens but yields no frames from. -/
def envNoFrames : Env :=
  { immeta := .ok metaOk, frames := [], iterError := Option.none
    ffprobe := .failure "unused" }

/-! ### Helper lemmas -/

lemma myTrunc_of_nonneg {q : ℚ} (h : 0 ≤ q) : myTrunc q = ⌊q⌋ := if_pos h

/-- The per-index retention rule applied by the frame loop: index `i` is
kept iff `i % frameStep == 0`, and a kept frame is the processed frame. -/
def keepFn (step : ℕ) (rf : ℚ) (w h : ℕ) : ℕ × Frame → Option Frame :=
  fun p => if p.1 % step == 0 then some (processFrame rf w h p.2) else Option.none

lemma processLoop_fst (step : ℕ) (rf : ℚ) (w h : ℕ) :
    ∀ (l : List Frame) (i : ℕ) (acc : List Frame), i ≤ 1000 →
      (processLoop step rf w h l i acc).1 =
        acc.reverse ++ ((l.take (1001 - i)).enumFrom i).filterMap (keepFn step rf w h) := by
  intro l
  induction l with
  | nil => intro i acc _; simp [processLoop]
  | cons f rest ih =>
    intro i acc hi
    by_cases hcap : i + 1 > 1000
    · have hieq : i = 1000 := by omega
      subst hieq
      have h1 : 1001 - 1000 = 1 := by norm_num
      simp only [processLoop, if_pos hcap, h1, List.take_succ_cons, List.take_zero,
        List.enumFrom_cons, List.enumFrom_nil, List.filterMap_cons, List.filterMap_nil]
      by_cases hk : (1000 % step == 0) = true
      · simp [keepFn, hk]
      · simp [keepFn, hk]
    · have hi' : i + 1 ≤ 1000 := by omega
      have h1 : 1001 - i = (1001 - (i + 1)) + 1 := by omega
      simp only [processLoop, if_neg hcap]
      rw [ih (i + 1) _ hi', h1, List.take_succ_cons, List.enumFrom_cons, List.filterMap_cons]
      by_cases hk : (i % step == 0) = true
      · simp [keepFn, hk, List.append_assoc]
      · simp [keepFn, hk]

lemma retainedList_eq (step : ℕ) (rf : ℚ) (w h : ℕ) (frames : List Frame) :
    retainedList step rf w h frames =
      ((frames.take 1001).enumFrom 0).filterMap (keepFn step rf w h) := by
  have h0 := processLoop_fst step rf w h frames 0 [] (by norm_num)
  simpa [retainedList] using h0

lemma retained_shape {step : ℕ} {rf : ℚ} {w h : ℕ} {frames : List Frame}
    {g : Frame} (hg : g ∈ retainedList step rf w h frames) :
    ∃ f, g = processFrame rf w h f := by
  rw [retainedList_eq] at hg
  rcases List.mem_filterMap.1 hg with ⟨p, _, hp⟩
  unfold keepFn at hp
  by_cases hk : (p.1 % step == 0) = true
  · rw [if_pos hk] at hp
    exact ⟨p.2, (Option.some.inj hp).symm⟩
  · rw [if_neg hk] at hp
    cases hp

lemma get_video_metadata_ffprobe_pos {r : FFProbeResult} {w h : ℤ} {f : ℚ}
    (hr : get_video_metadata_ffprobe r = .ok (w, h, f)) : 0 < w ∧ 0 < h := by
  cases r with
  | failure m => simp [get_video_metadata_ffprobe] at hr
  | success streams =>
    cases streams with
    | nil => simp [get_video_metadata_ffprobe] at hr
    | cons s rest =>
      simp only [get_video_metadata_ffprobe] at hr
      cases hsw : s.width with
      | none => rw [hsw] at hr; simp at hr
      | some wv =>
        cases hsh : s.height with
        | none => rw [hsw, hsh] at hr; simp at hr
        | some hv =>
          rw [hsw, hsh] at hr
          simp only at hr
          split at hr
          · cases hr
          · split at hr
            · cases hr
            · rename_i h1 h2
              rcases Except.ok.inj hr with h3
              obtain ⟨rfl, rfl, rfl⟩ : wv = w ∧ hv = h ∧ parseFrameRate s.r_frame_rate = f := by
                constructor
                · exact congrArg Prod.fst h3
                · exact ⟨congrArg Prod.fst (congrArg Prod.snd h3),
                         congrArg Prod.snd (congrArg Prod.snd h3)⟩
              push_neg at h2
              omega

lemma tryBody_ok_shape {env : Env} {rf sp : ℚ} {fps lc : ℤ}
    {recs : List GifFrameRec} {t : Trace}
    (hr : tryBody env rf sp fps lc = (.ok recs, t)) :
    ∃ retained : List Frame, retained ≠ [] ∧
      recs = retained.map fun f =>
        ⟨f.width, f.height, duration_ms fps, loopOpt lc⟩ := by
  unfold tryBody at hr
  split at hr
  · cases hr
  · rename_i ow oh vfps nf heq
    split at hr
    · cases hr
    · rename_i w h hcs
      split at hr
      · cases hr
      · rename_i step hfs
        split at hr
        · cases hr
        · split at hr
          · cases hr
          · rename_i hne
            rcases Prod.mk.inj hr with ⟨h1, h2⟩
            refine ⟨(processLoop step rf w h env.frames 0 []).1, ?_,
              (Except.ok.inj h1).symm⟩
            intro hnil
            rw [hnil] at hne
            simp at hne

lemma from_video_ok_shape {env : Env} {r : Resize} {s : Speed} {fps q : ℤ}
    {l : LoopMode} {recs : List GifFrameRec}
    (h : (from_video env r s fps q l).result = .ok recs) :
    ∃ retained : List Frame, retained ≠ [] ∧
      recs = retained.map fun f =>
        ⟨f.width, f.height, duration_ms fps, loopOpt (loop_count l)⟩ := by
  unfold from_video at h
  split at h
  · simp at h
  · simp only at h
    rcases hp : tryBody env r.factor s.factor fps (loop_count l) with ⟨res, tr⟩
    rw [hp] at h
    cases res with
    | error e => simp [wrapError] at h
    | ok v =>
      simp only [wrapError] at h
      obtain rfl : v = recs := Except.ok.inj h
      exact tryBody_ok_shape hp

/-! ### Claim theorems -/

/-- **C1.** For every positive source frame rate, every target fps in
`[3,10]` and every speed factor in `{0.5, 1, 2, 4}`, the engine computes
`frameStep = max 1 ⌊(sourceFps / targetFps) * speedFactor⌋`; the retained
frames are exactly those of index `i` (among the decoded indices, 0..1000)
with `i % frameStep == 0`, each passed through `processFrame`; and in
particular (30, 8, 1x) gives 3, (30, 8, 2x) gives 7 and (24, 10, 0.5x)
gives 1. -/
theorem frame_sampling_spec :
    (∀ (v : ℚ), 0 < v → ∀ (fps : ℤ), 3 ≤ fps → fps ≤ 10 →
      ∀ (sp : ℚ), sp = 1/2 ∨ sp = 1 ∨ sp = 2 ∨ sp = 4 →
        frame_step (.fin v) fps sp = .ok (max 1 ⌊v / (fps : ℚ) * sp⌋).toNat)
    ∧ (∀ (step : ℕ) (rf : ℚ) (w h : ℕ) (frames : List Frame),
        retainedList step rf w h frames =
          ((frames.take 1001).enumFrom 0).filterMap (keepFn step rf w h))
    ∧ frame_step (.fin 30) 8 1 = .ok 3
    ∧ frame_step (.fin 30) 8 2 = .ok 7
    ∧ frame_step (.fin 24) 10 (1/2) = .ok 1 := by
  refine ⟨?_, retainedList_eq, ?_, ?_, ?_⟩
  · intro v hv fps h3 _ sp hsp
    have hfq : (0:ℚ) < (fps:ℚ) := by
      have hz : (0:ℤ) < fps := by omega
      exact_mod_cast hz
    have hspq : (0:ℚ) < sp := by
      rcases hsp with h | h | h | h <;> rw [h] <;> norm_num
    have hq : (0:ℚ) ≤ v / (fps:ℚ) * sp :=
      le_of_lt (mul_pos (div_pos hv hfq) hspq)
    unfold frame_step stepVal
    simp only [myTrunc_of_nonneg hq]
    congr 1
    by_cases hlt : ⌊v / (fps:ℚ) * sp⌋ < 1
    · rw [if_pos hlt]; omega
    · rw [if_neg hlt]; omega
  · with_unfolding_all decide
  · with_unfolding_all decide
  · with_unfolding_all decide

/-- Witness for C1 at `sourceFps = 30, targetFps = 8, speed = 1x`. -/
theorem frame_sampling_witness :
    frame_step (.fin 30) 8 1 = .ok (max 1 ⌊(30 : ℚ) / ((8 : ℤ) : ℚ) * 1⌋).toNat :=
  frame_sampling_spec.1 30 (by norm_num) 8 (by norm_num) (by norm_num) 1 (by norm_num)

set_option maxRecDepth 100000 in
/-- **C2** (the code violates the 1000-frame cap): the safety `break` fires
only once the incremented index exceeds 1000, so indices 0..1000 — 1001
frames — are inspected, and with `frameStep = 1` (8 fps source, 8 fps
target, 1x) all 1001 are retained and written, exceeding the documented
1000-frame cap by one. -/
theorem frame_cap_exceeded_on_1001_frames :
    (from_video env1001 .p100 .one 8 75 .forever).result = .ok recs1001
    ∧ recs1001.length = 1001 := by
  constructor
  · with_unfolding_all decide
  · simp [recs1001]

/-- Shared helper: the end-to-end run on `envOk` with 50% resize, 1x speed,
8 fps, quality 75 and forever-loop succeeds and returns `recsOk`. -/
lemma envOk_run :
    (from_video envOk .p50 .one 8 75 .forever).result = .ok recsOk := by
  with_unfolding_all decide

/-- **C3.** Out-of-range fps (or, with fps in range, out-of-range quality)
makes the call fail with the validation error and the empty side-effect
trace: no file created, no decoder or ffprobe call; and in-range fps and
quality pass the (pure) parameter validation. -/
theorem validation_fail_fast :
    ∀ (env : Env) (r : Resize) (s : Speed) (fps q : ℤ) (l : LoopMode),
      (¬ (3 ≤ fps ∧ fps ≤ 10) →
        from_video env r s fps q l =
          ⟨.error "FPS must be between 3 and 10", Trace.empty⟩)
      ∧ ((3 ≤ fps ∧ fps ≤ 10) → ¬ (0 ≤ q ∧ q ≤ 100) →
        from_video env r s fps q l =
          ⟨.error "Quality must be between 0 and 100", Trace.empty⟩)
      ∧ Trace.empty.filesCreated = 0 ∧ Trace.empty.decoderCalls = 0
      ∧ Trace.empty.ffprobeCalls = 0 ∧ Trace.empty.videoFile = false
      ∧ Trace.empty.gifFile = false
      ∧ ((3 ≤ fps ∧ fps ≤ 10) → (0 ≤ q ∧ q ≤ 100) →
        validateParams fps q = .ok ()) := by
  intro env r s fps q l
  refine ⟨?_, ?_, rfl, rfl, rfl, rfl, rfl, ?_⟩
  · intro hf
    have hv : validateParams fps q = .error "FPS must be between 3 and 10" := by
      unfold validateParams
      rw [if_pos hf]
    unfold from_video
    rw [hv]
  · intro hf hq
    have hv : validateParams fps q = .error "Quality must be between 0 and 100" := by
      unfold validateParams
      rw [if_neg (not_not_intro hf), if_pos hq]
    unfold from_video
    rw [hv]
  · intro hf hq
    unfold validateParams
    rw [if_neg (not_not_intro hf), if_neg (not_not_intro hq)]

/-- Witness for C3: fps 11 is rejected, quality 101 is rejected, and
(8, 75) passes validation. -/
theorem validation_fail_fast_witness :
    from_video envOk .p100 .one 11 75 .forever =
      ⟨.error "FPS must be between 3 and 10", Trace.empty⟩
    ∧ from_video envOk .p100 .one 8 101 .forever =
      ⟨.error "Quality must be between 0 and 100", Trace.empty⟩
    ∧ validateParams 8 75 = .ok () :=
  ⟨(validation_fail_fast envOk .p100 .one 11 75 .forever).1 (by norm_num),
   (validation_fail_fast envOk .p100 .one 8 101 .forever).2.1
     (by norm_num) (by norm_num),
   (validation_fail_fast envOk .p100 .one 8 75 .forever).2.2.2.2.2.2.2
     (by norm_num) (by norm_num)⟩

/-- **C9.** After every conversion call — any environment, any options —
neither scratch file remains (the `finally` discipline), while every run of
the `try` body does create the scratch video file first. -/
theorem scratch_files_cleaned :
    (∀ (env : Env) (r : Resize) (s : Speed) (fps q : ℤ) (l : LoopMode),
      (from_video env r s fps q l).trace.videoFile = false
      ∧ (from_video env r s fps q l).trace.gifFile = false)
    ∧ (∀ (env : Env) (rf sp : ℚ) (fps lc : ℤ),
      (tryBody env rf sp fps lc).2.videoFile = true) := by
  constructor
  · intro env r s fps q l
    unfold from_video
    split
    · exact ⟨rfl, rfl⟩
    · exact ⟨rfl, rfl⟩
  · intro env rf sp fps lc
    unfold tryBody
    split
    · rfl
    · split
      · rfl
      · split
        · rfl
        · split
          · rfl
          · split
            · rfl
            · rfl

/-- **C10.** GIF bytes are returned only when at least one frame was
retained; on a source that decodes to zero frames the call raises instead
of returning a frameless GIF. -/
theorem gif_requires_retained_frames :
    (∀ (env : Env) (r : Resize) (s : Speed) (fps q : ℤ) (l : LoopMode)
        (recs : List GifFrameRec),
      (from_video env r s fps q l).result = .ok recs → recs ≠ [])
    ∧ (from_video envNoFrames .p100 .one 8 75 .forever).result =
      .error "Failed to convert video to GIF: No frames could be extracted from the video" := by
  constructor
  · intro env r s fps q l recs h
    rcases from_video_ok_shape h with ⟨retained, hne, rfl⟩
    simpa using hne
  · with_unfolding_all decide

/-- Witness for C10: the successful `envOk` run returns a non-empty
record list. -/
theorem gif_requires_retained_frames_witness : recsOk ≠ [] :=
  gif_requires_retained_frames.1 envOk .p50 .one 8 75 .forever recsOk envOk_run

set_option maxRecDepth 4000 in
/-- **C5.** For positive finite source dimensions and any resize option the
target size is the truncation of `original * resizePercent/100`, accepted
iff both truncations are positive (else the size error); an infinite
dimension is rejected; a resize other than 100% sends every retained frame
through the quality-resize path to exactly the target size; and 720x480 at
50% gives 360x240, at 75% gives 540x360. -/
theorem target_size_spec :
    ∀ (ow oh : ℚ), 0 < ow → 0 < oh → ∀ (r : Resize),
      (computeSize (.fin ow) (.fin oh) r.factor =
        if 0 < ⌊ow * r.factor⌋ ∧ 0 < ⌊oh * r.factor⌋ then
          .ok (⌊ow * r.factor⌋.toNat, ⌊oh * r.factor⌋.toNat)
        else .error "Calculated dimensions too small")
      ∧ (∀ (w h : ℕ) (f : Frame), r ≠ .p100 → processFrame r.factor w h f = ⟨w, h⟩)
      ∧ (∀ (step w h : ℕ) (frames : List Frame) (g : Frame), r ≠ .p100 →
          g ∈ retainedList step r.factor w h frames → g = ⟨w, h⟩)
      ∧ computeSize (.fin ow) .inf r.factor = .error "Invalid resize calculation"
      ∧ computeSize .inf (.fin oh) r.factor = .error "Invalid resize calculation"
      ∧ computeSize (.fin 720) (.fin 480) Resize.p50.factor = .ok (360, 240)
      ∧ computeSize (.fin 720) (.fin 480) Resize.p75.factor = .ok (540, 360) := by
  intro ow oh how hoh r
  have hrf : (0:ℚ) < r.factor := by cases r <;> norm_num [Resize.factor]
  have hrne : r ≠ .p100 → r.factor ≠ 1 := by
    cases r
    · intro _; norm_num [Resize.factor]
    · intro _; norm_num [Resize.factor]
    · intro _; norm_num [Resize.factor]
    · intro h; exact absurd rfl h
  refine ⟨?_, ?_, ?_, rfl, rfl, ?_, ?_⟩
  · have ha : (0:ℚ) < ow * r.factor := mul_pos how hrf
    have hb : (0:ℚ) < oh * r.factor := mul_pos hoh hrf
    unfold computeSize PyFloat.mulQ
    dsimp only
    rw [if_neg (by push_neg; exact ⟨ha, hb⟩)]
    rw [myTrunc_of_nonneg ha.le, myTrunc_of_nonneg hb.le]
    by_cases hwh : 0 < ⌊ow * r.factor⌋ ∧ 0 < ⌊oh * r.factor⌋
    · rw [if_pos hwh, if_neg (by omega)]
    · rw [if_neg hwh, if_pos (by omega)]
  · intro w h f hne
    unfold processFrame
    rw [if_pos (hrne hne)]
  · intro step w h frames g hne hg
    rcases retained_shape hg with ⟨f, rfl⟩
    unfold processFrame
    rw [if_pos (hrne hne)]
  · with_unfolding_all decide
  · with_unfolding_all decide

/-- Witness for C5 at 720x480 and 50% resize. -/
theorem target_size_witness :
    computeSize (.fin 720) (.fin 480) Resize.p50.factor = .ok (360, 240) :=
  (target_size_spec 720 480 (by norm_num) (by norm_num) .p50).2.2.2.2.2.1

/-- **C6.** For every target fps in `[3,10]` the per-frame duration is
`⌊1000 / targetFps⌋` milliseconds, and every record a successful
conversion writes — any environment, any speed, any resize — carries
exactly that duration. -/
theorem frame_duration_spec :
    ∀ (fps : ℤ), 3 ≤ fps → fps ≤ 10 →
      (duration_ms fps : ℤ) = ⌊(1000 : ℚ) / (fps : ℚ)⌋
      ∧ ∀ (env : Env) (r : Resize) (s : Speed) (q : ℤ) (l : LoopMode)
          (recs : List GifFrameRec),
          (from_video env r s fps q l).result = .ok recs →
          ∀ rec ∈ recs, rec.duration = duration_ms fps := by
  intro fps h3 _
  constructor
  · have hfq : (0:ℚ) < (fps:ℚ) := by
      have hz : (0:ℤ) < fps := by omega
      exact_mod_cast hz
    have hq : (0:ℚ) ≤ 1000 / (fps:ℚ) := le_of_lt (div_pos (by norm_num) hfq)
    have hfl : (0:ℤ) ≤ ⌊(1000:ℚ) / (fps:ℚ)⌋ := Int.floor_nonneg.2 hq
    unfold duration_ms
    rw [myTrunc_of_nonneg hq, Int.toNat_of_nonneg hfl]
  · intro env r s q l recs h rec hrec
    rcases from_video_ok_shape h with ⟨retained, _, rfl⟩
    rcases List.mem_map.1 hrec with ⟨f, _, rfl⟩
    rfl

/-- Witness for C6 at fps 8 on the successful `envOk` run. -/
theorem frame_duration_witness :
    (duration_ms 8 : ℤ) = ⌊(1000 : ℚ) / ((8 : ℤ) : ℚ)⌋
    ∧ (⟨360, 240, 125, some 0⟩ : GifFrameRec).duration = duration_ms 8 :=
  ⟨(frame_duration_spec 8 (by norm_num) (by norm_num)).1,
   (frame_duration_spec 8 (by norm_num) (by norm_num)).2 envOk .p50 .one 75
     .forever recsOk envOk_run ⟨360, 240, 125, some 0⟩ (by decide)⟩

/-- **C7.** The loop option maps `forever` to loop count 0 (infinite-loop
marker), `once` to 1, and `none` to the omit-loop sentinel `-1`, and every
record of a successful conversion carries the corresponding loop keyword:
`some 0`, `some 1`, or omitted. -/
theorem loop_metadata_spec :
    (loop_count .forever = 0 ∧ loopOpt (loop_count .forever) = some 0)
    ∧ (loop_count .once = 1 ∧ loopOpt (loop_count .once) = some 1)
    ∧ (loop_count .none = -1 ∧ loopOpt (loop_count .none) = Option.none)
    ∧ ∀ (env : Env) (r : Resize) (s : Speed) (fps q : ℤ) (lm : LoopMode)
        (recs : List GifFrameRec),
        (from_video env r s fps q lm).result = .ok recs →
        ∀ rec ∈ recs, rec.loop = loopOpt (loop_count lm) := by
  refine ⟨⟨rfl, rfl⟩, ⟨rfl, rfl⟩, ⟨rfl, by with_unfolding_all decide⟩, ?_⟩
  intro env r s fps q lm recs h rec hrec
  rcases from_video_ok_shape h with ⟨retained, _, rfl⟩
  rcases List.mem_map.1 hrec with ⟨f, _, rfl⟩
  rfl

/-- Witness for C7 on the forever-loop `envOk` run. -/
theorem loop_metadata_witness :
    (⟨360, 240, 125, some 0⟩ : GifFrameRec).loop = loopOpt (loop_count .forever) :=
  loop_metadata_spec.2.2.2 envOk .p50 .one 8 75 .forever recsOk envOk_run
    ⟨360, 240, 125, some 0⟩ (by decide)

/-- **C8.** A rational `num/den` frame rate from the probe is evaluated as
the exact quotient, a zero denominator leaves the 30.0 default, and the
frame rate the probe returns is exactly `parseFrameRate` of the stream's
`r_frame_rate` field. -/
theorem rational_rate_spec :
    (∀ (n d : ℤ), d ≠ 0 →
      parseFrameRate (some (.rational n d)) = (n : ℚ) / (d : ℚ))
    ∧ (∀ (n : ℤ), parseFrameRate (some (.rational n 0)) = 30)
    ∧ (∀ (s : FFProbeStream) (rest : List FFProbeStream) (w h : ℤ) (f : ℚ),
        get_video_metadata_ffprobe (.success (s :: rest)) = .ok (w, h, f) →
        f = parseFrameRate s.r_frame_rate) := by
  refine ⟨?_, ?_, ?_⟩
  · intro n d hd
    unfold parseFrameRate
    dsimp only
    rw [if_pos hd]
  · intro n
    unfold parseFrameRate
    dsimp only
    rw [if_neg (by simp)]
  · intro s rest w h f hr
    simp only [get_video_metadata_ffprobe] at hr
    cases hsw : s.width with
    | none => rw [hsw] at hr; simp at hr
    | some wv =>
      cases hsh : s.height with
      | none => rw [hsw, hsh] at hr; simp at hr
      | some hv =>
        rw [hsw, hsh] at hr
        simp only at hr
        split at hr
        · cases hr
        · split at hr
          · cases hr
          · have h3 := Except.ok.inj hr
            exact (congrArg Prod.snd (congrArg Prod.snd h3)).symm

/-- Witness for C8 with the NTSC rate 30000/1001 and a zero denominator. -/
theorem rational_rate_witness :
    parseFrameRate (some (.rational 30000 1001)) = (30000 : ℚ) / (1001 : ℚ)
    ∧ parseFrameRate (some (.rational 24 0)) = 30 :=
  ⟨rational_rate_spec.1 30000 1001 (by norm_num), rational_rate_spec.2.1 24⟩

/-- Modelled from the spec: steps 2-3 of the claimed metadata ladder —
decode the first frame directly for pixel dimensions (with the frame rate
known so far, defaulting to 30.0), and only if no frame is available fall
back to the external ffprobe probe. -/
def specLadderRest (fps0 : PyFloat) (firstFrame : Option Frame)
    (ffp : FFProbeResult) : Except String (PyFloat × PyFloat × PyFloat) :=
  match firstFrame with
  | some f => .ok (.fin (f.width : ℚ), .fin (f.height : ℚ), fps0)
  | Option.none => liftFFprobe (get_video_metadata_ffprobe ffp)

/-- Modelled from the spec: the full three-step metadata fallback ladder
the claim describes — (1) the primary decoder's declared stream metadata,
(2) first-frame inspection, (3) ffprobe — each later step tried only when
the earlier one fails or yields missing/zero/negative/infinite
dimensions. -/
def specMetaLadder (immeta : Except String IIOMeta) (firstFrame : Option Frame)
    (ffp : FFProbeResult) : Except String (PyFloat × PyFloat × PyFloat) :=
  match immeta with
  | .error _ => specLadderRest (.fin 30) firstFrame ffp
  | .ok m =>
    match extractDims m with
    | Option.none => specLadderRest (extractFps m) firstFrame ffp
    | some (w, h) =>
      if dimsInvalid w h then specLadderRest (extractFps m) firstFrame ffp
      else .ok (w, h, extractFps m)

set_option maxRecDepth 100000 in
/-- **C4 counterexample.** With primary metadata that opens but carries no
dimensions, a first frame the decoder can produce (640x480), and a failing
external probe, the claimed three-step ladder would succeed with the
first frame's dimensions — but the implementation consults only ffprobe,
so its metadata resolution and the whole conversion fail. -/
theorem metadata_ladder_counterexample :
    specMetaLadder (.ok metaNoDims) (some ⟨640, 480⟩) (.failure "probe down")
      = .ok (.fin 640, .fin 480, .fin 30)
    ∧ (resolveMetadata (.ok metaNoDims) (.failure "probe down")).1 =
      .error "probe down"
    ∧ (from_video envC4 .p100 .one 8 75 .forever).result =
      .error "Failed to convert video to GIF: probe down" := by
  refine ⟨?_, ?_, ?_⟩ <;> with_unfolding_all decide

/-- **C4 amended.** Metadata resolution is a two-step fallback: (1) the
primary decoder's declared stream metadata, used as-is when it yields valid
dimensions (with the frame rate defaulting to 30.0 when absent, per
`extractFps`), and (2) the external ffprobe probe, consulted exactly when
the primary metadata lacks dimensions, yields invalid ones, or could not be
read at all; the first frame is never decoded for metadata, and when both
the primary read and ffprobe fail the error cites the primary failure. -/
theorem metadata_two_step_spec :
    ∀ (m : IIOMeta) (ffp : FFProbeResult) (e : String),
      (∀ w h, extractDims m = some (w, h) → dimsInvalid w h = false →
        resolveMetadata (.ok m) ffp = (.ok (w, h, extractFps m), 0))
      ∧ (extractDims m = Option.none →
        resolveMetadata (.ok m) ffp =
          (liftFFprobe (get_video_metadata_ffprobe ffp), 1))
      ∧ (∀ w h, extractDims m = some (w, h) → dimsInvalid w h = true →
        resolveMetadata (.ok m) ffp =
          (liftFFprobe (get_video_metadata_ffprobe ffp), 1))
      ∧ (resolveMetadata (.error e) ffp =
          match get_video_metadata_ffprobe ffp with
          | .ok (w, h, f) => (.ok (.fin (w : ℚ), .fin (h : ℚ), .fin f), 1)
          | .error _ => (.error ("Unable to read video metadata: " ++ e), 1)) := by
  intro m ffp e
  refine ⟨?_, ?_, ?_, ?_⟩
  · intro w h hd hv
    simp [resolveMetadata, getMeta, resolveDims, hd, hv]
  · intro hd
    simp [resolveMetadata, getMeta, resolveDims, hd]
  · intro w h hd hv
    simp [resolveMetadata, getMeta, resolveDims, hd, hv]
  · cases hf : get_video_metadata_ffprobe ffp with
    | error msg => simp [resolveMetadata, getMeta, hf]
    | ok t =>
      obtain ⟨w, h, f⟩ := t
      have hpos := get_video_metadata_ffprobe_pos hf
      have hx : dimsInvalid (.fin (w : ℚ)) (.fin (h : ℚ)) = false := by
        have hw : ¬ ((w : ℚ) ≤ 0) := by
          rw [not_le]
          exact_mod_cast hpos.1
        have hh : ¬ ((h : ℚ) ≤ 0) := by
          rw [not_le]
          exact_mod_cast hpos.2
        simp [dimsInvalid, hw, hh]
      simp [resolveMetadata, getMeta, hf, resolveDims, extractDims, synthMeta,
        extractFps, hx]

set_option maxRecDepth 100000 in
/-- Witness for the amended C4: valid primary metadata is used directly,
with no ffprobe call. -/
theorem metadata_two_step_witness :
    resolveMetadata (.ok metaOk) (.failure "unused") =
      (.ok (.fin 720, .fin 480, .fin 30), 0) :=
  (metadata_two_step_spec metaOk (.failure "unused") "x").1 (.fin 720) (.fin 480)
    (by with_unfolding_all decide) (by with_unfolding_all decide)

end Gif
